import Mathlib

/-
Verification of the notes-with-webhooks application.

The embedding models the server side of the repository:
  * `WebhookService.updateWebhook` (src/server/webhookService.ts),
  * the note CRUD router `noteRouter` and its helper `updateHost`
    (src/server/api/routers/webhookEvent.ts, second half of the file),
  * the webhook configuration routers `webhookEventRouter` (same file)
    and `webhookInfoRouter` (src/server/api/routers/webhookInfo.ts).

The external collaborators are made explicit:
  * the Prisma record store is a `DB` value threaded through every
    operation; `findUnique` / `findFirst` / `upsert` / `create` /
    `update` / `delete` / `findMany` are translated to list operations
    with the same unique-key semantics;
  * the outcome of the single `fetch` call is an oracle argument
    (`FetchOutcome`), since the network is outside the program;
  * `Date.now()` / `new Date()` is a `now : Nat` argument (epoch ms);
  * the authenticated user id of `protectedProcedure` is a `String`
    argument (all modelled routes are protected, so a session exists).

Errors surface as `Except`: zod input rejections are `Err.validation`,
Prisma's record-not-found on update/delete is `Err.notFound`, the
TRPCError BAD_REQUEST thrown by `setEvent` is `Err.precondition` with
its message, and a TypeError escaping `new URL(url)` is `Err.urlError`.
-/

namespace NotesHook

/-- The Prisma `EventType` enum. -/
inductive EventType
  | NOTE_CREATE
  | NOTE_READ
  | NOTE_UPDATE
  | NOTE_DELETE
deriving DecidableEq

/-- Runtime value of a Prisma enum member: its name as a string
(this is what `JSON.stringify` serializes for the `type` field). -/
def eventName : EventType → String
  | .NOTE_CREATE => "NOTE_CREATE"
  | .NOTE_READ => "NOTE_READ"
  | .NOTE_UPDATE => "NOTE_UPDATE"
  | .NOTE_DELETE => "NOTE_DELETE"

/-- Structural JSON values, the shape `JSON.stringify` serializes. -/
inductive Json
  | null
  | bool (b : Bool)
  | num (n : Nat)
  | str (s : String)
  | arr (elems : List Json)
  | obj (fields : List (String × Json))

/-- A stored note row (`ctx.db.note`).  `data` is the note body. -/
structure Note where
  ID : String
  title : String
  data : String
  updatedOn : Nat
deriving DecidableEq

/-- A stored webhook configuration row (`ctx.db.webhookInfo`);
`userID` is its unique key. -/
structure WebhookInfo where
  ID : Nat
  userID : String
  hostURL : String
deriving DecidableEq

/-- A stored event-setting row (`ctx.db.webhookEvent`); the pair
`(webhookInfoID, event)` is its unique key. -/
structure WebhookEvent where
  ID : Nat
  webhookInfoID : Nat
  event : EventType
  enabled : Bool
deriving DecidableEq

/-- The record store.  `nextId` models the generator behind
server-generated identifiers. -/
structure DB where
  notes : List Note
  webhookInfos : List WebhookInfo
  webhookEvents : List WebhookEvent
  nextId : Nat
deriving DecidableEq

/-- Errors surfaced to the remote caller. -/
inductive Err
  | validation
  | notFound
  | precondition (msg : String)
  | urlError
deriving DecidableEq

/-- Oracle for the single outbound `fetch`: either a response (with its
`ok` flag, status and statusText) or a network-level rejection. -/
inductive FetchOutcome
  | response (ok : Bool) (status : Nat) (statusText : String)
  | networkError (msg : String)
deriving DecidableEq

/-- One outbound HTTP request as assembled by the code. -/
structure Request where
  url : String
  method : String
  contentType : String
  body : Json

/-- Result of one route invocation: the value or error returned to the
caller, the record store afterwards, the outbound requests attempted,
and the console-error log lines. -/
structure OpResult (α : Type) where
  res : Except Err α
  db : DB
  requests : List Request
  logs : List String

/-- JS `String.prototype.trim` (also applied by zod's `.trim()`),
modelled structurally so it evaluates in proofs. -/
def jsTrim (s : String) : String :=
  ⟨((s.data.dropWhile Char.isWhitespace).reverse.dropWhile Char.isWhitespace).reverse⟩

/-- Helper for `isAbsoluteURL`: scans alphabetic scheme characters
until the literal `://` separator, requiring a non-empty remainder. -/
def isURLAux : List Char → Bool
  | ':' :: '/' :: '/' :: rest => !rest.isEmpty
  | c :: rest => c.isAlpha && isURLAux rest
  | [] => false

/-- Modelled from the spec: the JS `URL` constructor (used by
`WebhookService.updateWebhook` and by zod's `.url()` validator) is a
platform builtin, not repository code; the spec requires "a
syntactically valid absolute URL".  Modelled as: an alphabetic scheme,
the `://` separator, and a non-empty remainder. -/
def isAbsoluteURL (s : String) : Bool :=
  match s.data with
  | c :: rest => c.isAlpha && isURLAux rest
  | [] => false

/-- The JSON body built by `updateWebhook`:
`JSON.stringify({ type, timestamp: Date.now(), data })`. -/
def payload (t : EventType) (now : Nat) (d : Json) : Json :=
  .obj [("type", .str (eventName t)), ("timestamp", .num now), ("data", d)]

/-- The request `updateWebhook` hands to `fetch`. -/
def mkRequest (url : String) (t : EventType) (d : Json) (now : Nat) : Request :=
  { url := url, method := "POST", contentType := "application/json",
    body := payload t now d }

/-- `WebhookService.updateWebhook` (src/server/webhookService.ts).
`new URL(url)` runs before the try/catch, so an unparseable url
escapes as an error; inside the try, a non-ok response or a rejected
fetch is only logged. -/
def updateWebhook (url : String) (t : EventType) (d : Json) (now : Nat)
    (fetch : FetchOutcome) : Except Err (List Request × List String) :=
  if isAbsoluteURL url then
    let req := mkRequest url t d now
    match fetch with
    | .response ok status statusText =>
      if ok then
        .ok ([req], [])
      else
        .ok ([req], ["Webhook request failed: " ++ toString status ++ " " ++ statusText])
    | .networkError msg => .ok ([req], ["Webhook request error: " ++ msg])
  else
    .error .urlError

/-- `updateHost` (src/server/api/routers/webhookEvent.ts, note-router
half): `findFirst` the caller's webhookInfo with its webhookEvents
included, silently return when absent, otherwise call the webhook
service on the first setting whose kind matches and is enabled.
(The code's `if (!ctx.session) return` guard is subsumed by
`protectedProcedure`: a user id is always present here.) -/
def updateHost (st : DB) (userId : String) (t : EventType) (d : Json)
    (now : Nat) (fetch : FetchOutcome) : Except Err (List Request × List String) :=
  match st.webhookInfos.find? (fun i => i.userID == userId) with
  | none => .ok ([], [])
  | some info =>
    match (st.webhookEvents.filter (fun e => e.webhookInfoID == info.ID)).find?
        (fun e => e.event == t && e.enabled) with
    | none => .ok ([], [])
    | some _ => updateWebhook info.hostURL t d now fetch

/-- The requests `updateHost` attempts, as a pure function of the
store (the fetch outcome never changes which requests are attempted). -/
def hostReqs (st : DB) (userId : String) (t : EventType) (d : Json)
    (now : Nat) : List Request :=
  match st.webhookInfos.find? (fun i => i.userID == userId) with
  | none => []
  | some info =>
    match (st.webhookEvents.filter (fun e => e.webhookInfoID == info.ID)).find?
        (fun e => e.event == t && e.enabled) with
    | none => []
    | some _ => [mkRequest info.hostURL t d now]

/-- JSON serialization of a note row. -/
def noteJson (n : Note) : Json :=
  .obj [("ID", .str n.ID), ("title", .str n.title), ("data", .str n.data),
        ("updatedOn", .num n.updatedOn)]

/-- `noteRouter.addNote`: zod input `z.string().trim().min(1)`;
`db.note.create` with default title and fresh id; then `updateHost`
with NOTE_CREATE and the created note; returns the note. -/
def addNote (st : DB) (userId : String) (input : String) (now : Nat)
    (fetch : FetchOutcome) : OpResult Note :=
  let body := jsTrim input
  if body.length < 1 then
    { res := .error .validation, db := st, requests := [], logs := [] }
  else
    let note : Note :=
      { ID := toString st.nextId, title := "Some title", data := body, updatedOn := now }
    let st1 : DB := { st with notes := st.notes ++ [note], nextId := st.nextId + 1 }
    match updateHost st1 userId .NOTE_CREATE (noteJson note) now fetch with
    | .error e => { res := .error e, db := st1, requests := [], logs := [] }
    | .ok (reqs, logs) => { res := .ok note, db := st1, requests := reqs, logs := logs }

/-- The row rewrite `db.note.update` performs: set `data := body` on
the row whose ID matches, leave every other row alone. -/
def updRow (id body : String) (n : Note) : Note :=
  if n.ID == id then { n with data := body } else n

/-- `noteRouter.updateNote`: zod input `{ ID: z.string().trim(),
data: z.string().trim().min(2) }`; `db.note.update` throws when the id
matches no row; then `updateHost` with NOTE_UPDATE and the updated
note; `success` is set from the (always truthy) updated row. -/
def updateNote (st : DB) (userId : String) (inputID inputData : String)
    (now : Nat) (fetch : FetchOutcome) : OpResult Bool :=
  let id := jsTrim inputID
  let body := jsTrim inputData
  if body.length < 2 then
    { res := .error .validation, db := st, requests := [], logs := [] }
  else
    match st.notes.find? (fun n => n.ID == id) with
    | none => { res := .error .notFound, db := st, requests := [], logs := [] }
    | some old =>
      let upd : Note := { old with data := body }
      let st1 : DB := { st with notes := st.notes.map (updRow id body) }
      match updateHost st1 userId .NOTE_UPDATE (noteJson upd) now fetch with
      | .error e => { res := .error e, db := st1, requests := [], logs := [] }
      | .ok (reqs, logs) => { res := .ok true, db := st1, requests := reqs, logs := logs }

/-- `noteRouter.findAllNotes`: `db.note.findMany()` (the `?? null`
fallback is dead, `findMany` always yields an array); then
`updateHost` with NOTE_READ and the full list; returns the list. -/
def findAllNotes (st : DB) (userId : String) (now : Nat)
    (fetch : FetchOutcome) : OpResult (List Note) :=
  let found := st.notes
  match updateHost st userId .NOTE_READ (.arr (found.map noteJson)) now fetch with
  | .error e => { res := .error e, db := st, requests := [], logs := [] }
  | .ok (reqs, logs) => { res := .ok found, db := st, requests := reqs, logs := logs }

/-- `noteRouter.deleteNote`: zod input `z.string().trim().min(1)`;
`db.note.delete` throws when the id matches no row; then `updateHost`
with NOTE_DELETE and the deleted row; returns the success flag. -/
def deleteNote (st : DB) (userId : String) (input : String) (now : Nat)
    (fetch : FetchOutcome) : OpResult Bool :=
  let id := jsTrim input
  if id.length < 1 then
    { res := .error .validation, db := st, requests := [], logs := [] }
  else
    match st.notes.find? (fun n => n.ID == id) with
    | none => { res := .error .notFound, db := st, requests := [], logs := [] }
    | some old =>
      let st1 : DB := { st with notes := st.notes.eraseP (fun n => n.ID == id) }
      match updateHost st1 userId .NOTE_DELETE (noteJson old) now fetch with
      | .error e => { res := .error e, db := st1, requests := [], logs := [] }
      | .ok (reqs, logs) => { res := .ok true, db := st1, requests := reqs, logs := logs }

/-- The row rewrite the webhookInfo upsert performs in its update
branch: overwrite `hostURL` on the row whose unique `userID` matches. -/
def updInfoRow (userId url : String) (i : WebhookInfo) : WebhookInfo :=
  if i.userID == userId then { i with hostURL := url } else i

/-- `webhookInfoRouter.setWebhookURL`: zod input `z.string().url()`;
`db.webhookInfo.upsert` keyed on the unique `userID` (update the
hostURL if a row exists, create one otherwise); returns the row. -/
def setWebhookURL (st : DB) (userId url : String) : OpResult WebhookInfo :=
  if isAbsoluteURL url then
    match st.webhookInfos.find? (fun i => i.userID == userId) with
    | some info =>
      { res := .ok { info with hostURL := url },
        db := { st with webhookInfos := st.webhookInfos.map (updInfoRow userId url) },
        requests := [], logs := [] }
    | none =>
      let row : WebhookInfo := { ID := st.nextId, userID := userId, hostURL := url }
      { res := .ok row,
        db := { st with webhookInfos := st.webhookInfos ++ [row], nextId := st.nextId + 1 },
        requests := [], logs := [] }
  else
    { res := .error .validation, db := st, requests := [], logs := [] }

/-- The row rewrite the webhookEvent upsert performs in its update
branch: overwrite `enabled` on the row whose composite key matches. -/
def updEvtRow (iid : Nat) (k : EventType) (b : Bool) (e : WebhookEvent) : WebhookEvent :=
  if e.webhookInfoID == iid && e.event == k then { e with enabled := b } else e

/-- `webhookEventRouter.setEvent`: look up the caller's webhookInfo;
throw BAD_REQUEST when absent; otherwise `db.webhookEvent.upsert`
keyed on the composite `(webhookInfoID, event)`; returns the row. -/
def setEvent (st : DB) (userId : String) (event : EventType) (enabled : Bool) :
    OpResult WebhookEvent :=
  match st.webhookInfos.find? (fun i => i.userID == userId) with
  | none =>
    { res := .error (.precondition "Webhook host not configured"),
      db := st, requests := [], logs := [] }
  | some info =>
    match st.webhookEvents.find? (fun e => e.webhookInfoID == info.ID && e.event == event) with
    | some old =>
      { res := .ok { old with enabled := enabled },
        db := { st with webhookEvents := st.webhookEvents.map (updEvtRow info.ID event enabled) },
        requests := [], logs := [] }
    | none =>
      let row : WebhookEvent :=
        { ID := st.nextId, webhookInfoID := info.ID, event := event, enabled := enabled }
      { res := .ok row,
        db := { st with webhookEvents := st.webhookEvents ++ [row], nextId := st.nextId + 1 },
        requests := [], logs := [] }

/-- `webhookEventRouter.getEvents`: the caller's settings, or the
empty list when no configuration exists. -/
def getEvents (st : DB) (userId : String) : OpResult (List WebhookEvent) :=
  match st.webhookInfos.find? (fun i => i.userID == userId) with
  | none => { res := .ok [], db := st, requests := [], logs := [] }
  | some info =>
    { res := .ok (st.webhookEvents.filter (fun e => e.webhookInfoID == info.ID)),
      db := st, requests := [], logs := [] }

/-- The spec's notification condition: the user has a WebhookConfig
containing an event setting of the triggering kind with the enabled
flag set. -/
def EnabledFor (st : DB) (u : String) (t : EventType) : Prop :=
  ∃ info ∈ st.webhookInfos, info.userID = u ∧
    ∃ e ∈ st.webhookEvents, e.webhookInfoID = info.ID ∧ e.event = t ∧ e.enabled = true

/-- The store's uniqueness and reference invariants: at most one
WebhookConfig per user, at most one WebhookEventSetting per
(config, kind), and every setting references an existing config. -/
def Inv (st : DB) : Prop :=
  st.webhookInfos.Pairwise (fun a b => a.userID ≠ b.userID) ∧
  st.webhookEvents.Pairwise
    (fun a b => a.webhookInfoID ≠ b.webhookInfoID ∨ a.event ≠ b.event) ∧
  ∀ e ∈ st.webhookEvents, ∃ i ∈ st.webhookInfos, i.ID = e.webhookInfoID

/-- A webhook-configuration request, for reasoning about sequences of
configuration operations. -/
inductive CfgOp
  | setURL (userId url : String)
  | setEvt (userId : String) (k : EventType) (enabled : Bool)

/-- The store after one configuration request. -/
def applyCfg (st : DB) : CfgOp → DB
  | .setURL u url => (setWebhookURL st u url).db
  | .setEvt u k b => (setEvent st u k b).db

/-- The store after a sequence of configuration requests. -/
def applyCfgs (st : DB) (ops : List CfgOp) : DB := ops.foldl applyCfg st

/-- A fetch that succeeds with HTTP 200. -/
def fetchOK : FetchOutcome := .response true 200 "OK"

/-- An empty record store. -/
def dbEmpty : DB := { notes := [], webhookInfos := [], webhookEvents := [], nextId := 0 }

/-- A store with one note and one configuration for user `u` that has
NOTE_CREATE enabled. -/
def dbOne : DB :=
  { notes := [{ ID := "7", title := "Some title", data := "hello", updatedOn := 0 }],
    webhookInfos := [{ ID := 0, userID := "u", hostURL := "https://example.com/hook" }],
    webhookEvents := [{ ID := 1, webhookInfoID := 0, event := .NOTE_CREATE, enabled := true }],
    nextId := 8 }

/-- On a parseable url, `updateWebhook` always succeeds with exactly
one assembled request, whatever the fetch outcome. -/
theorem updateWebhook_valid (url : String) (t : EventType) (d : Json) (now : Nat)
    (f : FetchOutcome) (h : isAbsoluteURL url = true) :
    ∃ logs, updateWebhook url t d now f = .ok ([mkRequest url t d now], logs) := by
  unfold updateWebhook
  rw [if_pos h]
  cases f with
  | response ok status statusText =>
    cases ok
    · exact ⟨_, rfl⟩
    · exact ⟨_, rfl⟩
  | networkError msg => exact ⟨_, rfl⟩

/-- C2: every outbound notification is a single HTTP POST to the
configured URL with Content-Type application/json, whose body is the
JSON object with exactly the three fields `type` (the event kind),
`timestamp` (the call time in epoch milliseconds) and `data` (the
entity or collection passed by the triggering operation). -/
theorem webhook_request_shape (url : String) (t : EventType) (d : Json) (now : Nat)
    (f : FetchOutcome) (h : isAbsoluteURL url = true) :
    ∃ logs, updateWebhook url t d now f =
      .ok ([{ url := url, method := "POST", contentType := "application/json",
              body := .obj [("type", .str (eventName t)), ("timestamp", .num now),
                            ("data", d)] }], logs) :=
  updateWebhook_valid url t d now f h

/-- C2 witness: the request shape at a concrete call. -/
theorem webhook_request_shape_witness :
    isAbsoluteURL "https://example.com/hook" = true ∧
    ∃ logs, updateWebhook "https://example.com/hook" .NOTE_CREATE .null 3 fetchOK =
      .ok ([{ url := "https://example.com/hook", method := "POST",
              contentType := "application/json",
              body := .obj [("type", .str (eventName .NOTE_CREATE)), ("timestamp", .num 3),
                            ("data", .null)] }], logs) :=
  ⟨rfl, webhook_request_shape "https://example.com/hook" .NOTE_CREATE .null 3 fetchOK rfl⟩

/-- C9: `updateWebhook` never throws when its url parses, whatever the
fetch outcome; but there is an unparseable url for which the URL
construction (which runs before the try/catch) throws, and that error
reaches the caller without being logged. -/
theorem updateWebhook_throw :
    (∀ url t d now f, isAbsoluteURL url = true →
      (updateWebhook url t d now f).isOk = true) ∧
    (∃ url, isAbsoluteURL url = false ∧
      ∀ t d now f, updateWebhook url t d now f = .error .urlError) := by
  constructor
  · intro url t d now f h
    obtain ⟨logs, hl⟩ := updateWebhook_valid url t d now f h
    rw [hl]
    rfl
  · refine ⟨"not a url", rfl, ?_⟩
    intro t d now f
    rfl

/-- C9 witness: a concrete valid url survives a network error. -/
theorem updateWebhook_throw_witness :
    isAbsoluteURL "https://example.com/hook" = true ∧
    (updateWebhook "https://example.com/hook" .NOTE_CREATE .null 0
      (.networkError "connection refused")).isOk = true :=
  ⟨rfl, updateWebhook_throw.1 "https://example.com/hook" .NOTE_CREATE .null 0
    (.networkError "connection refused") rfl⟩

/-- C5: an update whose body trims to fewer than 2 characters fails
with the validation error, leaves the store untouched, and attempts no
notification. -/
theorem update_short_body (st : DB) (u idS bodyS : String) (now : Nat) (f : FetchOutcome)
    (h : (jsTrim bodyS).length < 2) :
    updateNote st u idS bodyS now f =
      { res := .error .validation, db := st, requests := [], logs := [] } := by
  simp only [updateNote]
  rw [if_pos h]

/-- C5 witness: a one-character body is rejected without side effects. -/
theorem update_short_body_witness :
    (jsTrim "x").length < 2 ∧
    updateNote dbOne "u" "7" "x" 3 fetchOK =
      { res := .error .validation, db := dbOne, requests := [], logs := [] } :=
  ⟨by decide, update_short_body dbOne "u" "7" "x" 3 fetchOK (by decide)⟩

/-- C6 counterexample: the id `" "` identifies no existing note, yet
Delete rejects it with the validation error (zod `.trim().min(1)`),
not the not-found error the claim requires. -/
theorem delete_blank_id_cex :
    List.find? (fun n => n.ID == jsTrim " ") dbOne.notes = none ∧
    (deleteNote dbOne "u" " " 0 fetchOK).res = .error .validation ∧
    Err.validation ≠ Err.notFound :=
  ⟨rfl, rfl, by decide⟩

/-- C6 amended: for every id that is non-empty after trimming and does
not identify an existing note, Update and Delete both fail with the
not-found error and neither creates, mutates nor removes any note
(an id that trims to empty makes Delete fail with the validation
error instead). -/
theorem notFound_no_mutation (st : DB) (u idS bodyS : String) (now : Nat) (f : FetchOutcome)
    (hbody : 2 ≤ (jsTrim bodyS).length) (hid : 1 ≤ (jsTrim idS).length)
    (habsent : st.notes.find? (fun n => n.ID == jsTrim idS) = none) :
    updateNote st u idS bodyS now f =
      { res := .error .notFound, db := st, requests := [], logs := [] } ∧
    deleteNote st u idS now f =
      { res := .error .notFound, db := st, requests := [], logs := [] } := by
  constructor
  · simp only [updateNote]
    rw [if_neg (by omega), habsent]
  · simp only [deleteNote]
    rw [if_neg (by omega), habsent]

/-- C6 witness: a fresh id is rejected as not found by Update. -/
theorem notFound_no_mutation_witness :
    2 ≤ (jsTrim "body").length ∧ 1 ≤ (jsTrim "nope").length ∧
    List.find? (fun n => n.ID == jsTrim "nope") dbOne.notes = none ∧
    (updateNote dbOne "u" "nope" "body" 0 fetchOK).res = .error .notFound :=
  ⟨by decide, by decide, rfl, by
    rw [(notFound_no_mutation dbOne "u" "nope" "body" 0 fetchOK (by decide) (by decide) rfl).1]⟩

/-- C7 counterexample: with no configuration, SetEvent's error message
is "Webhook host not configured", not the claim's quoted
"webhook not configured". -/
theorem setEvent_message_cex :
    (setEvent dbEmpty "u" .NOTE_CREATE true).res =
      .error (.precondition "Webhook host not configured") ∧
    Err.precondition "Webhook host not configured" ≠
      Err.precondition "webhook not configured" :=
  ⟨rfl, by decide⟩

/-- C7 amended: for a user with no WebhookConfig, SetEvent fails with
the precondition error "Webhook host not configured" and creates no
setting, while GetEvents on the same state returns the empty list and
does not fail. -/
theorem setEvent_no_config (st : DB) (u : String) (k : EventType) (b : Bool)
    (h : st.webhookInfos.find? (fun i => i.userID == u) = none) :
    setEvent st u k b =
      { res := .error (.precondition "Webhook host not configured"),
        db := st, requests := [], logs := [] } ∧
    getEvents st u = { res := .ok [], db := st, requests := [], logs := [] } := by
  unfold setEvent getEvents
  rw [h]
  exact ⟨rfl, rfl⟩

/-- C7 witness: the empty store has no configuration for user u. -/
theorem setEvent_no_config_witness :
    List.find? (fun i => i.userID == "u") dbEmpty.webhookInfos = none ∧
    (setEvent dbEmpty "u" .NOTE_CREATE true).res =
      .error (.precondition "Webhook host not configured") :=
  ⟨rfl, by rw [(setEvent_no_config dbEmpty "u" .NOTE_CREATE true rfl).1]⟩

/-- C10: whenever Update or Delete returns normally, the boolean it
returns is true; failure is observable only as a thrown error. -/
theorem mutation_returns_true (st : DB) (u idS bodyS : String) (now : Nat) (f : FetchOutcome) :
    (∀ v, (updateNote st u idS bodyS now f).res = .ok v → v = true) ∧
    (∀ v, (deleteNote st u idS now f).res = .ok v → v = true) := by
  constructor
  · intro v hv
    simp only [updateNote] at hv
    split at hv
    · simp at hv
    · split at hv
      · simp at hv
      · split at hv
        · simp at hv
        · simp at hv
          exact hv
  · intro v hv
    simp only [deleteNote] at hv
    split at hv
    · simp at hv
    · split at hv
      · simp at hv
      · split at hv
        · simp at hv
        · simp at hv
          exact hv

/-- C10 witness: a successful concrete update returns true. -/
theorem mutation_returns_true_witness :
    (updateNote dbOne "u" "7" "newbody" 3 fetchOK).res = .ok true ∧ true = true :=
  ⟨by rfl, (mutation_returns_true dbOne "u" "7" "newbody" 3 fetchOK).1 true (by rfl)⟩

/-- Two members of a list that is pairwise-distinct on a key and agree
on that key are the same element. -/
theorem eq_of_mem_pairwise_key {α β : Type} {l : List α} {key : α → β}
    (h : l.Pairwise (fun a b => key a ≠ key b)) {a b : α}
    (ha : a ∈ l) (hb : b ∈ l) (hk : key a = key b) : a = b := by
  induction l with
  | nil => exact absurd ha (List.not_mem_nil a)
  | cons c l ih =>
    have hc := (List.pairwise_cons.mp h).1
    have hl := (List.pairwise_cons.mp h).2
    rcases List.mem_cons.mp ha with rfl | ha2
    · rcases List.mem_cons.mp hb with rfl | hb2
      · rfl
      · exact absurd hk (hc b hb2)
    · rcases List.mem_cons.mp hb with rfl | hb2
      · exact absurd hk.symm (hc a ha2)
      · exact ih hl ha2 hb2

/-- A list pairwise free of two predicate-satisfying members has at
most one. -/
theorem countP_le_one_of_pairwise {α : Type} {l : List α} {p : α → Bool}
    (h : l.Pairwise (fun a b => ¬(p a = true ∧ p b = true))) : l.countP p ≤ 1 := by
  induction l with
  | nil => simp
  | cons a l ih =>
    have hc := (List.pairwise_cons.mp h).1
    have hl := (List.pairwise_cons.mp h).2
    by_cases hp : p a = true
    · have hz : l.countP p = 0 :=
        List.countP_eq_zero.mpr (fun b hb hpb => hc b hb ⟨hp, hpb⟩)
      simp [List.countP_cons, hp, hz]
    · simp only [List.countP_cons, hp, if_false, Nat.add_zero]
      exact ih hl

/-- `countP` only depends on the predicate's values on the list. -/
theorem countP_congr_fn {α : Type} (l : List α) {p q : α → Bool}
    (h : ∀ a ∈ l, p a = q a) : l.countP p = l.countP q := by
  induction l with
  | nil => rfl
  | cons a l ih =>
    rw [List.countP_cons, List.countP_cons, h a (List.mem_cons_self a l),
        ih (fun b hb => h b (List.mem_cons_of_mem a hb))]

/-- The hostURL upsert-update keeps a row's userID. -/
theorem upd_userID (u url : String) (i : WebhookInfo) :
    (updInfoRow u url i).userID = i.userID := by
  unfold updInfoRow
  split <;> rfl

/-- The hostURL upsert-update keeps a row's identifier. -/
theorem upd_ID (u url : String) (i : WebhookInfo) :
    (updInfoRow u url i).ID = i.ID := by
  unfold updInfoRow
  split <;> rfl

/-- The enabled upsert-update keeps a setting's composite key. -/
theorem updEvt_key (iid : Nat) (k : EventType) (b : Bool) (e : WebhookEvent) :
    (updEvtRow iid k b e).webhookInfoID = e.webhookInfoID ∧
    (updEvtRow iid k b e).event = e.event := by
  unfold updEvtRow
  constructor <;> (split <;> rfl)

/-- With every stored hostURL parseable, `updateHost` always succeeds
and attempts exactly the requests `hostReqs` describes, whatever the
fetch outcome. -/
theorem updateHost_eq (st : DB) (u : String) (t : EventType) (d : Json) (now : Nat)
    (f : FetchOutcome)
    (hvalid : ∀ i ∈ st.webhookInfos, isAbsoluteURL i.hostURL = true) :
    ∃ logs, updateHost st u t d now f = .ok (hostReqs st u t d now, logs) := by
  cases hfind : st.webhookInfos.find? (fun i => i.userID == u) with
  | none =>
    refine ⟨[], ?_⟩
    unfold updateHost hostReqs
    simp only [hfind]
  | some info =>
    cases hev : (st.webhookEvents.filter (fun e => e.webhookInfoID == info.ID)).find?
        (fun e => e.event == t && e.enabled) with
    | none =>
      refine ⟨[], ?_⟩
      unfold updateHost hostReqs
      simp only [hfind, hev]
    | some e =>
      obtain ⟨logs, hl⟩ := updateWebhook_valid info.hostURL t d now f
        (hvalid info (List.mem_of_find?_eq_some hfind))
      refine ⟨logs, ?_⟩
      unfold updateHost hostReqs
      simp only [hfind, hev, hl]

/-- The notifier never attempts more than one request. -/
theorem hostReqs_len (st : DB) (u : String) (t : EventType) (d : Json) (now : Nat) :
    (hostReqs st u t d now).length ≤ 1 := by
  unfold hostReqs
  split
  · simp
  · split <;> simp

/-- C1: with the store invariants and parseable stored urls, the Event
Notifier makes exactly one outbound attempt when the user has a
configuration with an enabled setting of the triggering kind, and
otherwise does nothing and raises no error (the first matching enabled
entry found triggers the single call). -/
theorem notifier_dispatch (st : DB) (u : String) (t : EventType) (d : Json) (now : Nat)
    (f : FetchOutcome) (hInv : Inv st)
    (hvalid : ∀ i ∈ st.webhookInfos, isAbsoluteURL i.hostURL = true) :
    (EnabledFor st u t → ∃ r logs, updateHost st u t d now f = .ok ([r], logs)) ∧
    (¬ EnabledFor st u t → updateHost st u t d now f = .ok ([], [])) := by
  cases hfind : st.webhookInfos.find? (fun i => i.userID == u) with
  | none =>
    have hno : ¬ EnabledFor st u t := by
      rintro ⟨info, hmem, huser, -⟩
      have := List.find?_eq_none.mp hfind info hmem
      simp [huser] at this
    refine ⟨fun h => absurd h hno, fun _ => ?_⟩
    unfold updateHost
    simp only [hfind]
  | some info =>
    have hinfoU : info.userID = u := by
      have := List.find?_some hfind
      simpa using this
    have hinfoMem := List.mem_of_find?_eq_some hfind
    cases hev : (st.webhookEvents.filter fun e => e.webhookInfoID == info.ID).find?
        (fun e => e.event == t && e.enabled) with
    | none =>
      have hno : ¬ EnabledFor st u t := by
        rintro ⟨info2, hmem2, huser2, e, hemem, heid, hek, hen⟩
        have heq : info2 = info :=
          eq_of_mem_pairwise_key hInv.1 hmem2 hinfoMem (by rw [huser2, hinfoU])
        subst heq
        have hefilter : e ∈ st.webhookEvents.filter (fun x => x.webhookInfoID == info2.ID) :=
          List.mem_filter.mpr ⟨hemem, by simp [heid]⟩
        have := List.find?_eq_none.mp hev e hefilter
        simp [hek, hen] at this
      refine ⟨fun h => absurd h hno, fun _ => ?_⟩
      unfold updateHost
      simp only [hfind, hev]
    | some e0 =>
      have he0p := List.find?_some hev
      have he0f := List.mem_filter.mp (List.mem_of_find?_eq_some hev)
      have hyes : EnabledFor st u t := by
        refine ⟨info, hinfoMem, hinfoU, e0, he0f.1, ?_, ?_, ?_⟩
        · have := he0f.2
          simpa using this
        · have := (Bool.and_eq_true _ _).mp he0p
          simpa using this.1
        · have := (Bool.and_eq_true _ _).mp he0p
          simpa using this.2
      obtain ⟨logs, hl⟩ := updateWebhook_valid info.hostURL t d now f (hvalid info hinfoMem)
      refine ⟨fun _ => ⟨mkRequest info.hostURL t d now, logs, ?_⟩, fun h => absurd hyes h⟩
      unfold updateHost
      simp only [hfind, hev, hl]

/-- C1 witness: a configuration with NOTE_CREATE enabled yields one
attempt on a concrete store. -/
theorem notifier_dispatch_witness :
    Inv dbOne ∧
    ∃ r logs, updateHost dbOne "u" .NOTE_CREATE .null 0 fetchOK = .ok ([r], logs) := by
  have hInv : Inv dbOne := by
    unfold Inv
    decide
  refine ⟨hInv, (notifier_dispatch dbOne "u" .NOTE_CREATE .null 0 fetchOK hInv (by decide)).1 ?_⟩
  unfold EnabledFor
  decide

/-- Characterization of a valid Create: the trimmed body is stored in
a fresh note and the notifier's requests are attached to the result. -/
theorem addNote_char (st : DB) (u inp : String) (now : Nat) (f : FetchOutcome)
    (h : ¬ (jsTrim inp).length < 1)
    (hvalid : ∀ i ∈ st.webhookInfos, isAbsoluteURL i.hostURL = true) :
    ∃ logs, addNote st u inp now f =
      { res := .ok { ID := toString st.nextId, title := "Some title",
                     data := jsTrim inp, updatedOn := now },
        db := { st with
          notes := st.notes ++ [{ ID := toString st.nextId, title := "Some title",
                                  data := jsTrim inp, updatedOn := now }],
          nextId := st.nextId + 1 },
        requests := hostReqs
          { st with
            notes := st.notes ++ [{ ID := toString st.nextId, title := "Some title",
                                    data := jsTrim inp, updatedOn := now }],
            nextId := st.nextId + 1 } u .NOTE_CREATE
          (noteJson { ID := toString st.nextId, title := "Some title",
                      data := jsTrim inp, updatedOn := now }) now,
        logs := logs } := by
  obtain ⟨logs, hl⟩ := updateHost_eq
    { st with
      notes := st.notes ++ [{ ID := toString st.nextId, title := "Some title",
                              data := jsTrim inp, updatedOn := now }],
      nextId := st.nextId + 1 } u .NOTE_CREATE
    (noteJson { ID := toString st.nextId, title := "Some title",
                data := jsTrim inp, updatedOn := now }) now f
    (fun i hi => hvalid i hi)
  refine ⟨logs, ?_⟩
  unfold addNote
  simp only [if_neg h, hl]

/-- Characterization of a valid Update that finds its note. -/
theorem updateNote_char (st : DB) (u idS bodyS : String) (now : Nat) (f : FetchOutcome)
    (old : Note)
    (h : ¬ (jsTrim bodyS).length < 2)
    (hfind : st.notes.find? (fun n => n.ID == jsTrim idS) = some old)
    (hvalid : ∀ i ∈ st.webhookInfos, isAbsoluteURL i.hostURL = true) :
    ∃ logs, updateNote st u idS bodyS now f =
      { res := .ok true,
        db := { st with notes := st.notes.map (updRow (jsTrim idS) (jsTrim bodyS)) },
        requests := hostReqs
          { st with notes := st.notes.map (updRow (jsTrim idS) (jsTrim bodyS)) }
          u .NOTE_UPDATE (noteJson { old with data := jsTrim bodyS }) now,
        logs := logs } := by
  obtain ⟨logs, hl⟩ := updateHost_eq
    { st with notes := st.notes.map (updRow (jsTrim idS) (jsTrim bodyS)) }
    u .NOTE_UPDATE (noteJson { old with data := jsTrim bodyS }) now f
    (fun i hi => hvalid i hi)
  refine ⟨logs, ?_⟩
  unfold updateNote
  simp only [if_neg h, hfind, hl]

/-- Characterization of a valid Delete that finds its note. -/
theorem deleteNote_char (st : DB) (u idS : String) (now : Nat) (f : FetchOutcome)
    (old : Note)
    (h : ¬ (jsTrim idS).length < 1)
    (hfind : st.notes.find? (fun n => n.ID == jsTrim idS) = some old)
    (hvalid : ∀ i ∈ st.webhookInfos, isAbsoluteURL i.hostURL = true) :
    ∃ logs, deleteNote st u idS now f =
      { res := .ok true,
        db := { st with notes := st.notes.eraseP (fun n => n.ID == jsTrim idS) },
        requests := hostReqs { st with notes := st.notes.eraseP (fun n => n.ID == jsTrim idS) }
          u .NOTE_DELETE (noteJson old) now,
        logs := logs } := by
  obtain ⟨logs, hl⟩ := updateHost_eq
    { st with notes := st.notes.eraseP (fun n => n.ID == jsTrim idS) }
    u .NOTE_DELETE (noteJson old) now f (fun i hi => hvalid i hi)
  refine ⟨logs, ?_⟩
  unfold deleteNote
  simp only [if_neg h, hfind, hl]

/-- Characterization of FindAll: the full list is returned, the store
is untouched, and the notifier's requests are attached. -/
theorem findAll_char (st : DB) (u : String) (now : Nat) (f : FetchOutcome)
    (hvalid : ∀ i ∈ st.webhookInfos, isAbsoluteURL i.hostURL = true) :
    ∃ logs, findAllNotes st u now f =
      { res := .ok st.notes, db := st,
        requests := hostReqs st u .NOTE_READ (.arr (st.notes.map noteJson)) now,
        logs := logs } := by
  obtain ⟨logs, hl⟩ := updateHost_eq st u .NOTE_READ (.arr (st.notes.map noteJson)) now f hvalid
  refine ⟨logs, ?_⟩
  unfold findAllNotes
  simp only [hl]

/-- C4: Create returns a note whose body is the trimmed input and
appends exactly that note, for every input non-empty after trimming;
an input that trims to empty is rejected with the validation error and
creates nothing. -/
theorem create_spec (st : DB) (u inp : String) (now : Nat) (f : FetchOutcome)
    (hvalid : ∀ i ∈ st.webhookInfos, isAbsoluteURL i.hostURL = true) :
    (1 ≤ (jsTrim inp).length →
      ∃ n, (addNote st u inp now f).res = .ok n ∧ n.data = jsTrim inp ∧
        (addNote st u inp now f).db.notes = st.notes ++ [n]) ∧
    ((jsTrim inp).length = 0 →
      addNote st u inp now f =
        { res := .error .validation, db := st, requests := [], logs := [] }) := by
  constructor
  · intro hlen
    obtain ⟨logs, hl⟩ := addNote_char st u inp now f (by omega) hvalid
    rw [hl]
    exact ⟨_, rfl, rfl, rfl⟩
  · intro hlen
    unfold addNote
    simp only [if_pos (by omega : (jsTrim inp).length < 1)]

/-- C4 witness: a concrete Create stores the trimmed body. -/
theorem create_spec_witness :
    1 ≤ (jsTrim " hi ").length ∧
    ∃ n, (addNote dbOne "u" " hi " 5 fetchOK).res = .ok n ∧ n.data = jsTrim " hi " :=
  ⟨by decide, by
    obtain ⟨n, hn, hd, -⟩ := (create_spec dbOne "u" " hi " 5 fetchOK (by decide)).1 (by decide)
    exact ⟨n, hn, hd⟩⟩

/-- C3: once the storage step completes, the fetch outcome (network
error, non-2xx response) changes nothing but the log: every note route
returns the same result and store for every fetch outcome, and never
attempts more than one request (no retry). -/
theorem notifier_failure_isolated (st : DB) (u inp idS bodyS : String) (now : Nat)
    (f : FetchOutcome)
    (hvalid : ∀ i ∈ st.webhookInfos, isAbsoluteURL i.hostURL = true) :
    ((addNote st u inp now f).res = (addNote st u inp now fetchOK).res ∧
      (addNote st u inp now f).db = (addNote st u inp now fetchOK).db ∧
      (addNote st u inp now f).requests.length ≤ 1) ∧
    ((updateNote st u idS bodyS now f).res = (updateNote st u idS bodyS now fetchOK).res ∧
      (updateNote st u idS bodyS now f).db = (updateNote st u idS bodyS now fetchOK).db ∧
      (updateNote st u idS bodyS now f).requests.length ≤ 1) ∧
    ((findAllNotes st u now f).res = (findAllNotes st u now fetchOK).res ∧
      (findAllNotes st u now f).db = (findAllNotes st u now fetchOK).db ∧
      (findAllNotes st u now f).requests.length ≤ 1) ∧
    ((deleteNote st u idS now f).res = (deleteNote st u idS now fetchOK).res ∧
      (deleteNote st u idS now f).db = (deleteNote st u idS now fetchOK).db ∧
      (deleteNote st u idS now f).requests.length ≤ 1) := by
  refine ⟨?_, ?_, ?_, ?_⟩
  · by_cases h : (jsTrim inp).length < 1
    · have e1 : addNote st u inp now f =
          { res := .error .validation, db := st, requests := [], logs := [] } := by
        unfold addNote
        simp only [if_pos h]
      have e2 : addNote st u inp now fetchOK =
          { res := .error .validation, db := st, requests := [], logs := [] } := by
        unfold addNote
        simp only [if_pos h]
      rw [e1, e2]
      exact ⟨rfl, rfl, by simp⟩
    · obtain ⟨l1, h1⟩ := addNote_char st u inp now f h hvalid
      obtain ⟨l2, h2⟩ := addNote_char st u inp now fetchOK h hvalid
      rw [h1, h2]
      exact ⟨rfl, rfl, hostReqs_len _ _ _ _ _⟩
  · by_cases h : (jsTrim bodyS).length < 2
    · have e1 : updateNote st u idS bodyS now f =
          { res := .error .validation, db := st, requests := [], logs := [] } := by
        unfold updateNote
        simp only [if_pos h]
      have e2 : updateNote st u idS bodyS now fetchOK =
          { res := .error .validation, db := st, requests := [], logs := [] } := by
        unfold updateNote
        simp only [if_pos h]
      rw [e1, e2]
      exact ⟨rfl, rfl, by simp⟩
    · cases hfind : st.notes.find? (fun n => n.ID == jsTrim idS) with
      | none =>
        have e1 : updateNote st u idS bodyS now f =
            { res := .error .notFound, db := st, requests := [], logs := [] } := by
          unfold updateNote
          simp only [if_neg h, hfind]
        have e2 : updateNote st u idS bodyS now fetchOK =
            { res := .error .notFound, db := st, requests := [], logs := [] } := by
          unfold updateNote
          simp only [if_neg h, hfind]
        rw [e1, e2]
        exact ⟨rfl, rfl, by simp⟩
      | some old =>
        obtain ⟨l1, h1⟩ := updateNote_char st u idS bodyS now f old h hfind hvalid
        obtain ⟨l2, h2⟩ := updateNote_char st u idS bodyS now fetchOK old h hfind hvalid
        rw [h1, h2]
        exact ⟨rfl, rfl, hostReqs_len _ _ _ _ _⟩
  · obtain ⟨l1, h1⟩ := findAll_char st u now f hvalid
    obtain ⟨l2, h2⟩ := findAll_char st u now fetchOK hvalid
    rw [h1, h2]
    exact ⟨rfl, rfl, hostReqs_len _ _ _ _ _⟩
  · by_cases h : (jsTrim idS).length < 1
    · have e1 : deleteNote st u idS now f =
          { res := .error .validation, db := st, requests := [], logs := [] } := by
        unfold deleteNote
        simp only [if_pos h]
      have e2 : deleteNote st u idS now fetchOK =
          { res := .error .validation, db := st, requests := [], logs := [] } := by
        unfold deleteNote
        simp only [if_pos h]
      rw [e1, e2]
      exact ⟨rfl, rfl, by simp⟩
    · cases hfind : st.notes.find? (fun n => n.ID == jsTrim idS) with
      | none =>
        have e1 : deleteNote st u idS now f =
            { res := .error .notFound, db := st, requests := [], logs := [] } := by
          unfold deleteNote
          simp only [if_neg h, hfind]
        have e2 : deleteNote st u idS now fetchOK =
            { res := .error .notFound, db := st, requests := [], logs := [] } := by
          unfold deleteNote
          simp only [if_neg h, hfind]
        rw [e1, e2]
        exact ⟨rfl, rfl, by simp⟩
      | some old =>
        obtain ⟨l1, h1⟩ := deleteNote_char st u idS now f old h hfind hvalid
        obtain ⟨l2, h2⟩ := deleteNote_char st u idS now fetchOK old h hfind hvalid
        rw [h1, h2]
        exact ⟨rfl, rfl, hostReqs_len _ _ _ _ _⟩

/-- C3 witness: a concrete Create returns the same result under a
network error as under a 200 response. -/
theorem notifier_failure_isolated_witness :
    (∀ i ∈ dbOne.webhookInfos, isAbsoluteURL i.hostURL = true) ∧
    (addNote dbOne "u" "hello" 9 (.networkError "boom")).res =
      (addNote dbOne "u" "hello" 9 fetchOK).res :=
  ⟨by decide,
    ((notifier_failure_isolated dbOne "u" "hello" "7" "xx" 9
      (.networkError "boom") (by decide)).1).1⟩

/-- Shape of the store after a SetURL that updates an existing row. -/
theorem setURL_db_update (st : DB) (u url : String) (hurl : isAbsoluteURL url = true)
    (hfind : (st.webhookInfos.find? (fun i => i.userID == u)).isSome) :
    (setWebhookURL st u url).db =
      { st with webhookInfos := st.webhookInfos.map (updInfoRow u url) } := by
  obtain ⟨info, hf⟩ := Option.isSome_iff_exists.mp hfind
  unfold setWebhookURL
  simp only [if_pos hurl, hf]

/-- Shape of the store after a SetURL that inserts a fresh row. -/
theorem setURL_db_insert (st : DB) (u url : String) (hurl : isAbsoluteURL url = true)
    (hfind : st.webhookInfos.find? (fun i => i.userID == u) = none) :
    (setWebhookURL st u url).db =
      { st with
        webhookInfos := st.webhookInfos ++ [{ ID := st.nextId, userID := u, hostURL := url }],
        nextId := st.nextId + 1 } := by
  unfold setWebhookURL
  simp only [if_pos hurl, hfind]

/-- Shape of the store after a SetEvent that updates an existing row. -/
theorem setEvent_db_upd (st : DB) (u : String) (k : EventType) (b : Bool)
    (info : WebhookInfo)
    (hfind : st.webhookInfos.find? (fun i => i.userID == u) = some info)
    (hev : (st.webhookEvents.find?
      (fun e => e.webhookInfoID == info.ID && e.event == k)).isSome) :
    (setEvent st u k b).db =
      { st with webhookEvents := st.webhookEvents.map (updEvtRow info.ID k b) } := by
  obtain ⟨old, ho⟩ := Option.isSome_iff_exists.mp hev
  unfold setEvent
  simp only [hfind, ho]

/-- Shape of the store after a SetEvent that inserts a fresh row. -/
theorem setEvent_db_ins (st : DB) (u : String) (k : EventType) (b : Bool)
    (info : WebhookInfo)
    (hfind : st.webhookInfos.find? (fun i => i.userID == u) = some info)
    (hev : st.webhookEvents.find?
      (fun e => e.webhookInfoID == info.ID && e.event == k) = none) :
    (setEvent st u k b).db =
      { st with
        webhookEvents := st.webhookEvents ++
          [{ ID := st.nextId, webhookInfoID := info.ID, event := k, enabled := b }],
        nextId := st.nextId + 1 } := by
  unfold setEvent
  simp only [hfind, hev]

/-- SetURL preserves the store invariants. -/
theorem Inv_setWebhookURL (st : DB) (u url : String) (h : Inv st) :
    Inv (setWebhookURL st u url).db := by
  by_cases hurl : isAbsoluteURL url = true
  · cases hfind : st.webhookInfos.find? (fun i => i.userID == u) with
    | some info =>
      rw [setURL_db_update st u url hurl (by rw [hfind]; rfl)]
      refine ⟨?_, h.2.1, ?_⟩
      · rw [List.pairwise_map]
        exact h.1.imp (fun hab => by rw [upd_userID, upd_userID]; exact hab)
      · intro e he
        obtain ⟨i, hi, hid⟩ := h.2.2 e he
        refine ⟨updInfoRow u url i, List.mem_map_of_mem _ hi, ?_⟩
        rw [upd_ID]
        exact hid
    | none =>
      rw [setURL_db_insert st u url hurl hfind]
      refine ⟨?_, h.2.1, ?_⟩
      · rw [List.pairwise_append]
        refine ⟨h.1, List.pairwise_singleton _ _, ?_⟩
        intro a ha b hb
        rw [List.mem_singleton] at hb
        subst hb
        have := List.find?_eq_none.mp hfind a ha
        simpa using this
      · intro e he
        obtain ⟨i, hi, hid⟩ := h.2.2 e he
        exact ⟨i, List.mem_append_left _ hi, hid⟩
  · have hdb : (setWebhookURL st u url).db = st := by
      unfold setWebhookURL
      simp only [if_neg hurl]
    rw [hdb]
    exact h

/-- SetEvent preserves the store invariants. -/
theorem Inv_setEvent (st : DB) (u : String) (k : EventType) (b : Bool) (h : Inv st) :
    Inv (setEvent st u k b).db := by
  cases hfind : st.webhookInfos.find? (fun i => i.userID == u) with
  | none =>
    have hdb : (setEvent st u k b).db = st := by
      unfold setEvent
      simp only [hfind]
    rw [hdb]
    exact h
  | some info =>
    cases hev : st.webhookEvents.find?
        (fun e => e.webhookInfoID == info.ID && e.event == k) with
    | some old =>
      rw [setEvent_db_upd st u k b info hfind (by rw [hev]; rfl)]
      refine ⟨h.1, ?_, ?_⟩
      · rw [List.pairwise_map]
        refine h.2.1.imp (fun hab => ?_)
        rw [(updEvt_key info.ID k b _).1, (updEvt_key info.ID k b _).1,
            (updEvt_key info.ID k b _).2, (updEvt_key info.ID k b _).2]
        exact hab
      · intro e he
        rw [List.mem_map] at he
        obtain ⟨e0, he0, rfl⟩ := he
        obtain ⟨i, hi, hid⟩ := h.2.2 e0 he0
        refine ⟨i, hi, ?_⟩
        rw [(updEvt_key info.ID k b e0).1]
        exact hid
    | none =>
      rw [setEvent_db_ins st u k b info hfind hev]
      refine ⟨h.1, ?_, ?_⟩
      · rw [List.pairwise_append]
        refine ⟨h.2.1, List.pairwise_singleton _ _, ?_⟩
        intro a ha b2 hb2
        rw [List.mem_singleton] at hb2
        subst hb2
        have hna := List.find?_eq_none.mp hev a ha
        by_cases hID : a.webhookInfoID = info.ID
        · right
          intro hk2
          exact hna (by simp [hID, hk2])
        · left
          exact hID
      · intro e he
        rw [List.mem_append] at he
        rcases he with he | he
        · obtain ⟨i, hi, hid⟩ := h.2.2 e he
          exact ⟨i, hi, hid⟩
        · rw [List.mem_singleton] at he
          subst he
          exact ⟨info, List.mem_of_find?_eq_some hfind, rfl⟩

/-- Any sequence of configuration requests preserves the invariants. -/
theorem Inv_applyCfgs (st : DB) (ops : List CfgOp) (h : Inv st) :
    Inv (applyCfgs st ops) := by
  induction ops generalizing st with
  | nil => exact h
  | cons op ops ih =>
    cases op with
    | setURL u url => exact ih _ (Inv_setWebhookURL st u url h)
    | setEvt u k b => exact ih _ (Inv_setEvent st u k b h)

/-- After a valid SetURL, exactly one configuration row exists for the
user. -/
theorem setURL_count (st : DB) (u url : String) (hurl : isAbsoluteURL url = true)
    (h : Inv st) :
    (setWebhookURL st u url).db.webhookInfos.countP (fun i => i.userID == u) = 1 := by
  cases hfind : st.webhookInfos.find? (fun i => i.userID == u) with
  | some info =>
    rw [setURL_db_update st u url hurl (by rw [hfind]; rfl)]
    show (st.webhookInfos.map (updInfoRow u url)).countP (fun i => i.userID == u) = 1
    rw [List.countP_map]
    have hpq : ∀ a ∈ st.webhookInfos,
        ((fun i => i.userID == u) ∘ updInfoRow u url) a = (fun i => i.userID == u) a := by
      intro a _
      simp only [Function.comp]
      rw [upd_userID]
    rw [countP_congr_fn _ hpq]
    have hle : st.webhookInfos.countP (fun i => i.userID == u) ≤ 1 := by
      refine countP_le_one_of_pairwise (h.1.imp (fun hab hpair => hab ?_))
      have h1 := hpair.1
      have h2 := hpair.2
      rw [beq_iff_eq] at h1 h2
      rw [h1, h2]
    have hp := List.find?_some hfind
    have hpos : 0 < st.webhookInfos.countP (fun i => i.userID == u) :=
      List.countP_pos_iff.mpr ⟨info, List.mem_of_find?_eq_some hfind, hp⟩
    omega
  | none =>
    rw [setURL_db_insert st u url hurl hfind]
    show (st.webhookInfos ++
        [({ ID := st.nextId, userID := u, hostURL := url } : WebhookInfo)]).countP
      (fun i => i.userID == u) = 1
    rw [List.countP_append, List.countP_eq_zero.mpr (List.find?_eq_none.mp hfind)]
    simp

/-- After a SetEvent through an existing configuration, exactly one
setting row exists for the composite key, and the configuration rows
are untouched. -/
theorem setEvent_countP (st : DB) (u : String) (k : EventType) (b : Bool)
    (info : WebhookInfo)
    (hfind : st.webhookInfos.find? (fun i => i.userID == u) = some info)
    (h : Inv st) :
    (setEvent st u k b).db.webhookEvents.countP
      (fun e => e.webhookInfoID == info.ID && e.event == k) = 1 ∧
    (setEvent st u k b).db.webhookInfos = st.webhookInfos := by
  cases hev : st.webhookEvents.find?
      (fun e => e.webhookInfoID == info.ID && e.event == k) with
  | some old =>
    rw [setEvent_db_upd st u k b info hfind (by rw [hev]; rfl)]
    constructor
    · show (st.webhookEvents.map (updEvtRow info.ID k b)).countP
        (fun e => e.webhookInfoID == info.ID && e.event == k) = 1
      rw [List.countP_map]
      have hpq : ∀ a ∈ st.webhookEvents,
          ((fun e => e.webhookInfoID == info.ID && e.event == k) ∘ updEvtRow info.ID k b) a
            = (fun e => e.webhookInfoID == info.ID && e.event == k) a := by
        intro a _
        simp only [Function.comp]
        rw [(updEvt_key info.ID k b a).1, (updEvt_key info.ID k b a).2]
      rw [countP_congr_fn _ hpq]
      have hle : st.webhookEvents.countP
          (fun e => e.webhookInfoID == info.ID && e.event == k) ≤ 1 := by
        refine countP_le_one_of_pairwise (h.2.1.imp (fun hab hpair => ?_))
        obtain ⟨ha1, ha2⟩ := (Bool.and_eq_true _ _).mp hpair.1
        obtain ⟨hb1, hb2⟩ := (Bool.and_eq_true _ _).mp hpair.2
        rw [beq_iff_eq] at ha1 ha2 hb1 hb2
        rcases hab with hID | hk2
        · exact hID (by rw [ha1, hb1])
        · exact hk2 (by rw [ha2, hb2])
      have hp := List.find?_some hev
      have hpos : 0 < st.webhookEvents.countP
          (fun e => e.webhookInfoID == info.ID && e.event == k) :=
        List.countP_pos_iff.mpr ⟨old, List.mem_of_find?_eq_some hev, hp⟩
      omega
    · rfl
  | none =>
    rw [setEvent_db_ins st u k b info hfind hev]
    constructor
    · show (st.webhookEvents ++
          [({ ID := st.nextId, webhookInfoID := info.ID, event := k,
              enabled := b } : WebhookEvent)]).countP
        (fun e => e.webhookInfoID == info.ID && e.event == k) = 1
      rw [List.countP_append, List.countP_eq_zero.mpr (List.find?_eq_none.mp hev)]
      simp
    · rfl

/-- After a SetEvent that updates an existing setting, every row with
the composite key carries the new flag. -/
theorem setEvent_all_b (st : DB) (u : String) (k : EventType) (b : Bool)
    (info : WebhookInfo)
    (hfind : st.webhookInfos.find? (fun i => i.userID == u) = some info)
    (hev : (st.webhookEvents.find?
      (fun e => e.webhookInfoID == info.ID && e.event == k)).isSome) :
    ∀ e ∈ (setEvent st u k b).db.webhookEvents,
      e.webhookInfoID = info.ID → e.event = k → e.enabled = b := by
  rw [setEvent_db_upd st u k b info hfind hev]
  intro e he hid hk2
  have he2 : e ∈ st.webhookEvents.map (updEvtRow info.ID k b) := he
  rw [List.mem_map] at he2
  obtain ⟨e0, he0, rfl⟩ := he2
  by_cases hP : (e0.webhookInfoID == info.ID && e0.event == k) = true
  · show (updEvtRow info.ID k b e0).enabled = b
    unfold updEvtRow
    rw [if_pos hP]
  · exfalso
    apply hP
    rw [(updEvt_key info.ID k b e0).1] at hid
    rw [(updEvt_key info.ID k b e0).2] at hk2
    simp [hid, hk2]

/-- C8: after any sequence of SetURL / SetEvent requests the store
keeps at most one WebhookConfig per user, at most one setting per
(config, kind), and no orphaned setting; SetURL twice with the same
URL leaves exactly one row for that user; SetEvent twice for the same
kind leaves one setting row for that kind carrying the latest flag,
as GetEvents reports. -/
theorem config_invariants (st : DB) (hInv : Inv st) :
    (∀ ops : List CfgOp, Inv (applyCfgs st ops)) ∧
    (∀ u url, isAbsoluteURL url = true →
      (applyCfgs st [.setURL u url, .setURL u url]).webhookInfos.countP
        (fun i => i.userID == u) = 1) ∧
    (∀ u k b1 b2, (st.webhookInfos.find? (fun i => i.userID == u)).isSome →
      ∃ evs, (getEvents (applyCfgs st [.setEvt u k b1, .setEvt u k b2]) u).res = .ok evs ∧
        evs.countP (fun e => e.event == k) = 1 ∧
        ∀ e ∈ evs, e.event = k → e.enabled = b2) := by
  refine ⟨fun ops => Inv_applyCfgs st ops hInv, ?_, ?_⟩
  · intro u url hurl
    show (setWebhookURL (setWebhookURL st u url).db u url).db.webhookInfos.countP
      (fun i => i.userID == u) = 1
    exact setURL_count (setWebhookURL st u url).db u url hurl (Inv_setWebhookURL st u url hInv)
  · intro u k b1 b2 hsome0
    obtain ⟨info, hfind⟩ := Option.isSome_iff_exists.mp hsome0
    obtain ⟨hcnt1, hinfos1⟩ := setEvent_countP st u k b1 info hfind hInv
    have hInv1 : Inv (setEvent st u k b1).db := Inv_setEvent st u k b1 hInv
    have hfind1 : (setEvent st u k b1).db.webhookInfos.find?
        (fun i => i.userID == u) = some info := by
      rw [hinfos1]
      exact hfind
    have hsome1 : ((setEvent st u k b1).db.webhookEvents.find?
        (fun e => e.webhookInfoID == info.ID && e.event == k)).isSome := by
      rw [List.find?_isSome]
      have hpos : 0 < (setEvent st u k b1).db.webhookEvents.countP
          (fun e => e.webhookInfoID == info.ID && e.event == k) := by omega
      obtain ⟨a, ha, hpa⟩ := List.countP_pos_iff.mp hpos
      exact ⟨a, ha, hpa⟩
    obtain ⟨hcnt2, hinfos2⟩ := setEvent_countP (setEvent st u k b1).db u k b2 info hfind1 hInv1
    have hall2 := setEvent_all_b (setEvent st u k b1).db u k b2 info hfind1 hsome1
    have hfind2 : (setEvent (setEvent st u k b1).db u k b2).db.webhookInfos.find?
        (fun i => i.userID == u) = some info := by
      rw [hinfos2]
      exact hfind1
    refine ⟨(setEvent (setEvent st u k b1).db u k b2).db.webhookEvents.filter
      (fun e => e.webhookInfoID == info.ID), ?_, ?_, ?_⟩
    · show (getEvents (setEvent (setEvent st u k b1).db u k b2).db u).res = _
      unfold getEvents
      simp only [hfind2]
    · rw [List.countP_filter]
      rw [countP_congr_fn _ (fun a _ => Bool.and_comm _ _)]
      exact hcnt2
    · intro e he hk2
      have hid : e.webhookInfoID = info.ID := by
        have := (List.mem_filter.mp he).2
        simpa using this
      exact hall2 e (List.mem_filter.mp he).1 hid hk2

/-- C8 witness: a concrete double SetEvent on a configured store. -/
theorem config_invariants_witness :
    Inv dbOne ∧
    ∃ evs, (getEvents (applyCfgs dbOne
        [.setEvt "u" .NOTE_READ false, .setEvt "u" .NOTE_READ true]) "u").res = .ok evs ∧
      evs.countP (fun e => e.event == EventType.NOTE_READ) = 1 ∧
      ∀ e ∈ evs, e.event = EventType.NOTE_READ → e.enabled = true := by
  have hInv : Inv dbOne := by
    unfold Inv
    decide
  exact ⟨hInv, (config_invariants dbOne hInv).2.2 "u" .NOTE_READ false true (by decide)⟩

end NotesHook
